import Mathlib

/-
Verification development for the natural-language query engine of the
finance-consolidation dashboard (src/query_engine.py).

Text is modelled as `List Char` (`Str`).  The code extractor, the sandboxed
executor, the data-summary generator and the orchestrator of
`query_engine.py` are embedded as executable Lean functions below; each
definition carries a comment pointing at the Python lines it transcribes.

Modelling conventions:
- Python `None` is the `PyValue.vNone` value; a dict entry holding `None`
  is `vNone` (or `Option.none` for fields the spec calls "absent").
- The `exec`-based executor runs model-generated Python code.  The fragment
  of Python that the claims exercise (binding the `result` variable,
  deleting it, raising an exception, mutating the shared dataframe in
  place, or pure computation) is embedded as the small statement language
  `Stmt`; a code string reaches the executor together with an abstract
  interpretation function `interp : Str -> List Stmt` standing for the
  Python parser/semantics on that fragment.
- Monetary amounts (Python floats) are modelled as exact rationals; the
  rounding mode of the `:,.2f` float format is abstracted to
  round-half-up on rationals (no claim depends on float rounding).
- Dates are kept in their parsed ISO `YYYY-MM-DD` form; comparison of
  parsed dates coincides with lexicographic comparison of these strings.
-/

/-- Text, modelled as a list of characters. -/
abbrev Str := List Char

/-- The whitespace characters stripped by Python `str.strip()`. -/
def pyWhitespace (c : Char) : Bool :=
  c == ' ' || c == '\t' || c == '\n' || c == '\r' || c == '\x0b' || c == '\x0c'

/-- Python `str.strip()`: remove leading and trailing whitespace. -/
def strip (s : Str) : Str :=
  ((s.dropWhile pyWhitespace).reverse.dropWhile pyWhitespace).reverse

/-- `strStarts n h` is true when `n` is a (contiguous, initial) prefix of `h`. -/
def strStarts : Str → Str → Bool
  | [], _ => true
  | _ :: _, [] => false
  | c :: cs, d :: ds => c == d && strStarts cs ds

/-- Index of the first (leftmost) occurrence of `n` as a substring of `h`,
as located by `re.search` / Python's `in` operator. -/
def firstOcc (n : Str) : Str → Option Nat
  | [] => if strStarts n [] then some 0 else none
  | c :: t => if strStarts n (c :: t) then some 0 else (firstOcc n t).map (· + 1)

/-- Python's substring test `n in h`. -/
def containsSub (n h : Str) : Bool :=
  (firstOcc n h).isSome

/-- One pass of Python `str.split(sep)` keeping only the final piece:
repeatedly skip past the leftmost occurrence of `sep` (non-overlapping,
left to right, as `str.split` scans); what remains after the last
occurrence is `split(sep)[-1]`.  The fuel is an upper bound on the number
of scanning steps; `splitLast` supplies `text.length`, which suffices
because each step consumes at least one character. -/
def splitLastAux (sep : Str) : Nat → Str → Str
  | 0, text => text
  | fuel + 1, text =>
    match firstOcc sep text with
    | none => text
    | some i => splitLastAux sep fuel (text.drop (i + sep.length))

/-- Python `text.split(sep)[-1]` for a nonempty separator. -/
def splitLast (sep text : Str) : Str :=
  splitLastAux sep text.length text

/-- The opening code delimiter of the prompt contract. -/
def openT : Str := "<code>".toList

/-- The closing code delimiter of the prompt contract. -/
def closeT : Str := "</code>".toList

/-- `extract_code` (query_engine.py lines 49-55): locate the first
`<code>` tag, then the first `</code>` tag after it (the non-greedy
`(.*?)` of `re.search(r'<code>(.*?)</code>', text, re.DOTALL)` matches
exactly the span up to the earliest closing tag; DOTALL lets it span
newlines), and return the enclosed text stripped.  `none` models the
Python `return None` when the pattern does not match: if the earliest
`<code>` has no `</code>` after it, no later start position can succeed
either, so the search fails. -/
def extract_code (text : Str) : Option Str :=
  match firstOcc openT text with
  | none => none
  | some i =>
    match firstOcc closeT (text.drop (i + openT.length)) with
    | none => none
    | some j => some (strip ((text.drop (i + openT.length)).take j))

/-- The explanation computed by the orchestrator (query_engine.py line 130):
`response_text.split('</code>')[-1].strip() if '</code>' in response_text
else ''`. -/
def explanation_of (text : Str) : Str :=
  if containsSub closeT text then strip (splitLast closeT text) else []

/-- The spec's view of the code extractor (section 4.3): the delimited code
block, if any, together with the trailing explanation text. -/
def extractFull (text : Str) : Option Str × Str :=
  (extract_code text, explanation_of text)

/-- Python values that flow through the execution namespace. -/
inductive PyValue where
  | vNone
  | vStr (s : Str)
  | vInt (n : Int)
deriving DecidableEq

/-- One row of the consolidated financial dataframe (columns of
data/consolidated_master.csv after `load_data` parses the date column). -/
structure Row where
  date : Str
  department : Str
  category : Str
  amount : Rat
  type : Str
  description : Str
deriving DecidableEq

/-- The in-memory dataframe: an ordered collection of rows. -/
abbrev Dataset := List Row

/-- The per-invocation execution namespace built by `execute_code`
(query_engine.py lines 63-67): the dataframe under the fixed name `df`
and the `result` slot, pre-bound to `None`.  `result = some v` models the
key being present with value `v`; `none` models the key having been
deleted.  (The constant `pd` binding carries no state and is omitted.) -/
structure ExecEnv where
  df : Dataset
  result : Option PyValue
deriving DecidableEq

/-- The fragment of Python statements exercised by the claims, as run by
`exec(code, namespace)`:
- `set_result v`  models `result = v`;
- `del_result`    models `del result`;
- `raise_err msg` models raising an exception whose `str` form is `msg`
  (Python allows `msg` to be empty, e.g. `raise Exception()` or a failed
  `assert`);
- `zero_amounts`  models `df['Amount'] = 0`, an in-place mutation of the
  dataframe object shared by reference with the module-level `df`;
- `pure_compute`  models any computation that completes normally without
  touching the namespace (e.g. `x = 1`). -/
inductive Stmt where
  | set_result (v : PyValue)
  | del_result
  | raise_err (msg : Str)
  | zero_amounts
  | pure_compute
deriving DecidableEq

/-- Effect of a single statement on the execution namespace. -/
def runStmt : Stmt → ExecEnv → Except Str ExecEnv
  | .set_result v, env => .ok { env with result := some v }
  | .del_result, env =>
    match env.result with
    | some _ => .ok { env with result := none }
    | none => .error "name \x27result\x27 is not defined".toList
  | .raise_err msg, _ => .error msg
  | .zero_amounts, env =>
    .ok { env with df := env.df.map (fun r => { r with amount := 0 }) }
  | .pure_compute, env => .ok env

/-- Sequential execution of a statement list, as `exec` runs a module
body: stops at the first raised fault, returning its message together
with the namespace state reached at that point. -/
def runCode : List Stmt → ExecEnv → Option Str × ExecEnv
  | [], env => (none, env)
  | s :: rest, env =>
    match runStmt s env with
    | .ok env' => runCode rest env'
    | .error msg => (some msg, env)

/-- The dict returned by `execute_code` (query_engine.py lines 70-82). -/
structure ExecutionResult where
  success : Bool
  result : PyValue
  error : Option Str
deriving DecidableEq

/-- `execute_code` (query_engine.py lines 58-82): build a fresh namespace
with `df` and `result = None`, run the code, and never propagate a fault.
On completion, `result` of the dict is `namespace.get('result', 'Code
executed but no result was set.')`: the default only applies when the
`result` KEY is absent (i.e. the code deleted it); a never-assigned slot
still holds its initial `None`.  The second component is the state of the
dataframe object after execution - it is shared by reference with the
caller's (the module-level) dataframe, so in-place mutations persist. -/
def execute_code (code : List Stmt) (dataframe : Dataset) : ExecutionResult × Dataset :=
  let ns0 : ExecEnv := { df := dataframe, result := some PyValue.vNone }
  match runCode code ns0 with
  | (none, ns) =>
    ({ success := true,
       result := match ns.result with
         | some v => v
         | none => PyValue.vStr "Code executed but no result was set.".toList,
       error := none }, ns.df)
  | (some msg, ns) =>
    ({ success := false, result := PyValue.vNone, error := some msg }, ns.df)

/-- `df[df['Type'] == 'Revenue']['Amount'].sum()` (query_engine.py line 32). -/
def total_revenue (rows : Dataset) : Rat :=
  ((rows.filter (fun r => r.type == "Revenue".toList)).map Row.amount).sum

/-- `df[df['Type'] == 'Expense']['Amount'].sum()` (query_engine.py line 33). -/
def total_expenses (rows : Dataset) : Rat :=
  ((rows.filter (fun r => r.type == "Expense".toList)).map Row.amount).sum

/-- Lexicographic order on text; on parsed ISO `YYYY-MM-DD` dates it agrees
with chronological order. -/
def strLe : Str → Str → Bool
  | [], _ => true
  | _ :: _, [] => false
  | c :: cs, d :: ds => if c < d then true else if c = d then strLe cs ds else false

/-- `df['Date'].min()`: `none` models pandas `NaT` on an empty series. -/
def dateMin (rows : Dataset) : Option Str :=
  match rows.map Row.date with
  | [] => none
  | d :: ds => some (ds.foldl (fun m x => if strLe x m then x else m) d)

/-- `df['Date'].max()`: `none` models pandas `NaT` on an empty series. -/
def dateMax (rows : Dataset) : Option Str :=
  match rows.map Row.date with
  | [] => none
  | d :: ds => some (ds.foldl (fun m x => if strLe m x then x else m) d)

/-- `.strftime('%Y-%m-%d')` applied to a (possibly `NaT`) date: on a parsed
ISO date it reproduces the stored text; on `NaT` pandas raises
`ValueError: NaTType does not support strftime`. -/
def nat_strftime : Option Str → Except Str Str
  | none => .error "NaTType does not support strftime".toList
  | some d => .ok d

/-- `df['Department'].unique()`: distinct values in order of first
occurrence. -/
def uniqueAux (seen : List Str) : List Str → List Str
  | [] => []
  | x :: xs =>
    if x ∈ seen then uniqueAux seen xs else x :: uniqueAux (x :: seen) xs

/-- Distinct values of a column, keeping first-occurrence order. -/
def unique (l : List Str) : List Str :=
  uniqueAux [] l

/-- Python `sep.join(parts)`. -/
def joinSep (sep : Str) : List Str → Str
  | [] => []
  | [x] => x
  | x :: xs => x ++ sep ++ joinSep sep xs

/-- The decimal digit character for `d < 10`. -/
def digitChar (d : Nat) : Char :=
  Char.ofNat (48 + d)

/-- Decimal digits of a natural number (fuelled; `natDigits` supplies
enough fuel). -/
def natDigitsAux : Nat → Nat → Str
  | 0, _ => []
  | fuel + 1, n =>
    if n < 10 then [digitChar n] else natDigitsAux fuel (n / 10) ++ [digitChar (n % 10)]

/-- Decimal digit string of a natural number. -/
def natDigits (n : Nat) : Str :=
  natDigitsAux (n + 1) n

/-- Insert a comma after every group of three digits, counting from the
right; the input is the reversed digit string. -/
def commaGroupAux : Str → Nat → Str
  | [], _ => []
  | c :: cs, k =>
    if k == 3 then ',' :: c :: commaGroupAux cs 1 else c :: commaGroupAux cs (k + 1)

/-- Thousands separation of a digit string, as Python's `,` format flag. -/
def commaGroup (digits : Str) : Str :=
  (commaGroupAux digits.reverse 0).reverse

/-- The number of cents in `q`, rounding half up: the floor of
`q * 100 + 1/2` computed on the exact fraction (abstraction of the float
rounding of the `:,.2f` format; no claim depends on the rounding mode). -/
def ratCents (q : Rat) : Int :=
  Int.ediv (q.num * 200 + (q.den : Int)) ((q.den : Int) * 2)

/-- Python `f"{q:,.2f}"`: sign, thousands-separated integer part, and two
fractional digits. -/
def pyFormatComma2 (q : Rat) : Str :=
  let cents := ratCents q
  let sign : Str := if cents < 0 then "-".toList else []
  let n := cents.natAbs
  sign ++ commaGroup (natDigits (n / 100)) ++ ".".toList ++
    [digitChar (n / 10 % 10), digitChar (n % 10)]

/-- `get_data_summary` (query_engine.py lines 31-46): the textual data
snapshot built from the current dataframe.  The `date_range` f-string
formats `df['Date'].min()` and `df['Date'].max()` with `strftime`, which
raises on an empty dataframe (both are `NaT` there); the raise
propagates, so the function is `Except`-valued. -/
def get_data_summary (rows : Dataset) : Except Str Str :=
  match nat_strftime (dateMin rows) with
  | .error e => .error e
  | .ok dmin =>
    match nat_strftime (dateMax rows) with
    | .error e => .error e
    | .ok dmax =>
      .ok ("\nCURRENT DATA SNAPSHOT:\n- Total Revenue: $".toList
        ++ pyFormatComma2 (total_revenue rows)
        ++ "\n- Total Expenses: $".toList ++ pyFormatComma2 (total_expenses rows)
        ++ "\n- Net Income: $".toList
        ++ pyFormatComma2 (total_revenue rows - total_expenses rows)
        ++ "\n- Transaction Count: ".toList ++ commaGroup (natDigits rows.length)
        ++ "\n- Date Range: ".toList ++ dmin ++ " to ".toList ++ dmax
        ++ "\n- Departments: ".toList
        ++ joinSep ", ".toList (unique (rows.map Row.department))
        ++ "\n".toList)

/-- The answer envelope returned by `ask_financial_question`
(query_engine.py docstring, lines 85-96).  `answer` is a `PyValue`
because the success branch copies the executed code's `result` value
verbatim, which may be Python `None`. -/
structure Envelope where
  answer : PyValue
  code : Option Str
  explanation : Str
  success : Bool
  error : Option Str
deriving DecidableEq

/-- Python truthiness test `not code` on an optional string: true for
`None` and for the empty string. -/
def pyFalsy : Option Str → Bool
  | none => true
  | some s => s.isEmpty

/-- The user-turn prompt composed at query_engine.py lines 100-104. -/
def full_prompt (data_context question : Str) : Str :=
  data_context ++ "\n\nUSER QUESTION: ".toList ++ question
    ++ "\n\nWrite pandas code to answer this question. Remember to store your final answer in the `result` variable.".toList

/-- `ask_financial_question` (query_engine.py lines 85-151).  The Claude
completion call (`client.messages.create` with the fixed `SYSTEM_PROMPT`)
is abstracted as the stub `llm` mapping the composed user prompt to the
raw response text; `interp` stands for the Python parsing/semantics of an
extracted code string (see `Stmt`).  The module-level dataframe is
threaded explicitly: the returned dataset is its (possibly mutated) state
after the call.  A raise inside `get_data_summary` propagates, hence the
`Except` result. -/
def ask_financial_question (llm : Str → Str) (interp : Str → List Stmt)
    (question : Str) (rows : Dataset) : Except Str (Envelope × Dataset) :=
  match get_data_summary rows with
  | .error e => .error e
  | .ok data_context =>
    let response_text := llm (full_prompt data_context question)
    let code? := extract_code response_text
    if pyFalsy code? then
      .ok ({ answer := PyValue.vStr "I couldn\x27t generate code to answer that question.".toList,
             code := none,
             explanation := response_text,
             success := false,
             error := some "No code block found in response".toList }, rows)
    else
      let code := code?.getD []
      let explanation := explanation_of response_text
      let execution_result := (execute_code (interp code) rows).1
      let df' := (execute_code (interp code) rows).2
      if execution_result.success then
        .ok ({ answer := execution_result.result, code := some code,
               explanation := explanation, success := true, error := none }, df')
      else
        .ok ({ answer := PyValue.vStr ("I wrote code but it had an error: ".toList
                 ++ execution_result.error.getD []),
               code := some code, explanation := explanation, success := false,
               error := execution_result.error }, df')

/-- Statements that rebind or unbind the `result` slot. -/
def touches_result : Stmt → Bool
  | .set_result _ => true
  | .del_result => true
  | _ => false

/-- The three-row dataset of spec section 8 test (3), used as a concrete
fixture: one revenue row of 100 and expense rows of 40 and 10. -/
def sampleDs : Dataset :=
  [ { date := "2025-01-15".toList, department := "Sales".toList,
      category := "Product Revenue".toList, amount := 100,
      type := "Revenue".toList, description := "sale".toList },
    { date := "2025-02-10".toList, department := "Marketing".toList,
      category := "Digital Advertising".toList, amount := 40,
      type := "Expense".toList, description := "ads".toList },
    { date := "2025-03-05".toList, department := "Operations".toList,
      category := "Software".toList, amount := 10,
      type := "Expense".toList, description := "tools".toList } ]

/-- The data snapshot text computed for `sampleDs` (used to discharge
summary hypotheses in concrete scenarios). -/
def sampleCtx : Str :=
  (get_data_summary sampleDs).toOption.getD []

/-- A deterministic completion-service stub producing a well-formed
delimited answer for the `sampleDs` revenue question. -/
def c1llm : Str → Str :=
  fun _ => "<code>result = \x27Total: $100.00\x27</code>\nSums revenue.".toList

/-- The Python meaning of the code block produced by `c1llm`: bind the
`result` slot to the formatted total. -/
def c1interp : Str → List Stmt :=
  fun _ => [Stmt.set_result (PyValue.vStr "Total: $100.00".toList)]

/-- The envelope `ask_financial_question` produces for the `c1llm` /
`c1interp` scenario on `sampleDs`. -/
def c1Env : Envelope :=
  { answer := PyValue.vStr "Total: $100.00".toList,
    code := some "result = \x27Total: $100.00\x27".toList,
    explanation := "Sums revenue.".toList,
    success := true,
    error := none }

/-! Lemmas about the substring-search primitives. -/

theorem strStarts_iff (p : Str) : ∀ l, strStarts p l = true ↔ ∃ t, l = p ++ t := by
  induction p with
  | nil =>
    intro l
    simp [strStarts]
  | cons c cs ih =>
    intro l
    cases l with
    | nil => simp [strStarts]
    | cons d ds =>
      simp only [strStarts, Bool.and_eq_true, beq_iff_eq, ih, List.cons_append]
      constructor
      · rintro ⟨rfl, t, rfl⟩
        exact ⟨t, rfl⟩
      · rintro ⟨t, h⟩
        injection h with h1 h2
        exact ⟨h1.symm, t, h2⟩

theorem starts_getElem {n h : Str} (hs : strStarts n h = true) {j : Nat}
    (hj : j < n.length) : h[j]? = n[j]? := by
  rcases (strStarts_iff n h).mp hs with ⟨t, rfl⟩
  exact List.getElem?_append_left hj

theorem starts_of_starts_append :
    ∀ (n x y : Str), strStarts n (x ++ y) = true → n.length ≤ x.length →
      strStarts n x = true := by
  intro n
  induction n with
  | nil => intro x y _ _; rfl
  | cons c cs ih =>
    intro x y h hl
    cases x with
    | nil => simp at hl
    | cons d ds =>
      simp only [List.cons_append] at h
      simp only [strStarts, Bool.and_eq_true] at h ⊢
      exact ⟨h.1, ih ds y h.2 (by simpa using hl)⟩

theorem firstOcc_matches {n : Str} : ∀ {h : Str} {i : Nat},
    firstOcc n h = some i → strStarts n (h.drop i) = true := by
  intro h
  induction h with
  | nil =>
    intro i hfo
    rw [firstOcc] at hfo
    by_cases hs : strStarts n [] = true
    · rw [if_pos hs] at hfo
      injection hfo with h0
      subst h0
      simpa using hs
    · rw [if_neg hs] at hfo
      cases hfo
  | cons c t ih =>
    intro i hfo
    rw [firstOcc] at hfo
    by_cases hs : strStarts n (c :: t) = true
    · rw [if_pos hs] at hfo
      injection hfo with h0
      subst h0
      simpa using hs
    · rw [if_neg hs] at hfo
      rcases Option.map_eq_some'.mp hfo with ⟨j, hj, hji⟩
      subst hji
      simpa [List.drop_succ_cons] using ih hj

theorem firstOcc_least {n : Str} : ∀ {h : Str} {i : Nat},
    firstOcc n h = some i → ∀ j, j < i → strStarts n (h.drop j) = false := by
  intro h
  induction h with
  | nil =>
    intro i hfo j hj
    rw [firstOcc] at hfo
    by_cases hs : strStarts n [] = true
    · rw [if_pos hs] at hfo
      injection hfo with h0
      omega
    · rw [if_neg hs] at hfo
      cases hfo
  | cons c t ih =>
    intro i hfo j hj
    rw [firstOcc] at hfo
    by_cases hs : strStarts n (c :: t) = true
    · rw [if_pos hs] at hfo
      injection hfo with h0
      omega
    · rw [if_neg hs] at hfo
      rcases Option.map_eq_some'.mp hfo with ⟨k, hk, hki⟩
      subst hki
      cases j with
      | zero => simpa using Bool.eq_false_iff.mpr hs
      | succ j => simpa [List.drop_succ_cons] using ih hk j (by omega)

theorem firstOcc_none_no_match {n : Str} : ∀ {h : Str},
    firstOcc n h = none → ∀ j, strStarts n (h.drop j) = false := by
  intro h
  induction h with
  | nil =>
    intro hfo j
    rw [firstOcc] at hfo
    by_cases hs : strStarts n [] = true
    · rw [if_pos hs] at hfo
      cases hfo
    · simpa [List.drop_nil] using Bool.eq_false_iff.mpr hs
  | cons c t ih =>
    intro hfo j
    rw [firstOcc] at hfo
    by_cases hs : strStarts n (c :: t) = true
    · rw [if_pos hs] at hfo
      cases hfo
    · rw [if_neg hs] at hfo
      have ht : firstOcc n t = none := by
        cases hf : firstOcc n t with
        | none => rfl
        | some k => rw [hf] at hfo; cases hfo
      cases j with
      | zero => simpa using Bool.eq_false_iff.mpr hs
      | succ j => simpa [List.drop_succ_cons] using ih ht j

theorem firstOcc_exists {n : Str} : ∀ {h : Str} {j : Nat},
    strStarts n (h.drop j) = true → ∃ i, firstOcc n h = some i ∧ i ≤ j := by
  intro h
  induction h with
  | nil =>
    intro j hs
    rw [List.drop_nil] at hs
    exact ⟨0, by rw [firstOcc, if_pos hs], Nat.zero_le j⟩
  | cons c t ih =>
    intro j hs
    by_cases hs0 : strStarts n (c :: t) = true
    · exact ⟨0, by rw [firstOcc, if_pos hs0], Nat.zero_le j⟩
    · cases j with
      | zero => exact absurd hs hs0
      | succ j =>
        rw [List.drop_succ_cons] at hs
        rcases ih hs with ⟨i, hi, hle⟩
        refine ⟨i + 1, ?_, by omega⟩
        rw [firstOcc, if_neg hs0, hi]
        rfl

theorem contains_of_starts {n h : Str} {j : Nat}
    (hs : strStarts n (h.drop j) = true) : containsSub n h = true := by
  rcases firstOcc_exists hs with ⟨i, hfo, _⟩
  unfold containsSub
  rw [hfo]
  rfl

theorem firstOcc_eq_none_of_not_contains {n h : Str}
    (hc : containsSub n h = false) : firstOcc n h = none := by
  unfold containsSub at hc
  cases hfo : firstOcc n h with
  | none => rfl
  | some i => rw [hfo] at hc; cases hc

theorem drop_append_left {α : Type} (x y : List α) {n : Nat} (h : n ≤ x.length) :
    (x ++ y).drop n = x.drop n ++ y := by
  rw [List.drop_append_eq_append_drop, Nat.sub_eq_zero_of_le h, List.drop_zero]

/-- A delimiter tag whose first character occurs nowhere else in it.  Both
`<code>` and `</code>` have this shape (the only `<` is the head), which
rules out any occurrence of the tag straddling the boundary between
surrounding text and a literal copy of the tag. -/
def headOnly (tag : Str) (ch : Char) : Prop :=
  tag[0]? = some ch ∧ ∀ j, j < tag.length → 0 < j → tag[j]? ≠ some ch

theorem headOnly_openT : headOnly openT '<' := by
  constructor
  · rfl
  · decide

theorem headOnly_closeT : headOnly closeT '<' := by
  constructor
  · rfl
  · decide

theorem tag_length_pos {tag : Str} {ch : Char} (hh : headOnly tag ch) :
    0 < tag.length := by
  rcases List.getElem?_eq_some_iff.mp hh.1 with ⟨h0, _⟩
  exact h0

/-- No occurrence of a `headOnly` tag can start strictly inside `a` and
reach past its end into the literal tag that follows: the tag character at
the boundary would have to be the tag's head character at a nonzero
offset. -/
theorem matches_in_left_bound {tag a b : Str} {ch : Char} (hh : headOnly tag ch)
    {i : Nat} (hm : strStarts tag ((a ++ (tag ++ b)).drop i) = true)
    (hi : i < a.length) : i + tag.length ≤ a.length := by
  by_contra hlt
  push_neg at hlt
  have hj0 : 0 < a.length - i := by omega
  have hjlen : a.length - i < tag.length := by omega
  have hc1 : ((a ++ (tag ++ b)).drop i)[a.length - i]? = (a ++ (tag ++ b))[a.length]? := by
    rw [List.getElem?_drop]
    congr 1
    omega
  have hc2 : (a ++ (tag ++ b))[a.length]? = some ch := by
    rw [List.getElem?_append_right (Nat.le_refl a.length), Nat.sub_self,
      List.getElem?_append_left (tag_length_pos hh)]
    exact hh.1
  have h4 := starts_getElem hm hjlen
  rw [hc1, hc2] at h4
  exact hh.2 (a.length - i) hjlen hj0 h4.symm

/-- The leftmost occurrence of a `headOnly` tag in `a ++ tag ++ b` is the
explicit one, provided `a` does not contain the tag. -/
theorem firstOcc_append_self {tag a b : Str} {ch : Char} (hh : headOnly tag ch)
    (ha : containsSub tag a = false) :
    firstOcc tag (a ++ (tag ++ b)) = some a.length := by
  have hmatch : strStarts tag ((a ++ (tag ++ b)).drop a.length) = true := by
    rw [List.drop_left]
    exact (strStarts_iff _ _).mpr ⟨b, rfl⟩
  rcases firstOcc_exists hmatch with ⟨i, hfo, hle⟩
  rcases Nat.lt_or_ge i a.length with hlt | hge
  · exfalso
    have hm := firstOcc_matches hfo
    have hbound := matches_in_left_bound hh hm hlt
    have hstar : strStarts tag (a.drop i) = true := by
      rw [drop_append_left a (tag ++ b) (Nat.le_of_lt hlt)] at hm
      refine starts_of_starts_append _ _ _ hm ?_
      rw [List.length_drop]
      omega
    have hcon := contains_of_starts hstar
    rw [ha] at hcon
    cases hcon
  · have hieq : i = a.length := Nat.le_antisymm hle hge
    rw [← hieq]
    exact hfo

theorem splitLastAux_no_occ {sep s : Str} (hs : containsSub sep s = false) :
    ∀ fuel, splitLastAux sep fuel s = s := by
  intro fuel
  cases fuel with
  | zero => rfl
  | succ n =>
    rw [splitLastAux, firstOcc_eq_none_of_not_contains hs]

/-- `split(sep)[-1]` on `A ++ sep ++ s` is `s` whenever `sep` is a
`headOnly` tag that does not occur in `s`: the left-to-right scan consumes
every occurrence inside `A` (none can straddle out of `A`), then the
explicit separator, and stops. -/
theorem splitLastAux_append {tag s : Str} {ch : Char} (hh : headOnly tag ch)
    (hs : containsSub tag s = false) :
    ∀ fuel, ∀ A : Str, (A ++ (tag ++ s)).length ≤ fuel →
      splitLastAux tag fuel (A ++ (tag ++ s)) = s := by
  intro fuel
  induction fuel with
  | zero =>
    intro A hlen
    exfalso
    have := tag_length_pos hh
    simp only [List.length_append] at hlen
    omega
  | succ n ih =>
    intro A hlen
    have hmatch : strStarts tag ((A ++ (tag ++ s)).drop A.length) = true := by
      rw [List.drop_left]
      exact (strStarts_iff _ _).mpr ⟨s, rfl⟩
    rcases firstOcc_exists hmatch with ⟨i, hfo, hle⟩
    rw [splitLastAux, hfo]
    show splitLastAux tag n ((A ++ (tag ++ s)).drop (i + tag.length)) = s
    rcases Nat.lt_or_ge i A.length with hlt | hge
    · have hm := firstOcc_matches hfo
      have hbound := matches_in_left_bound hh hm hlt
      rw [drop_append_left A (tag ++ s) hbound]
      apply ih
      have h1 : (A.drop (i + tag.length)).length = A.length - (i + tag.length) :=
        List.length_drop _ _
      have h2 := tag_length_pos hh
      simp only [List.length_append] at hlen ⊢
      omega
    · have hieq : i = A.length := Nat.le_antisymm hle hge
      subst hieq
      have hdrop : (A ++ (tag ++ s)).drop (A.length + tag.length) = s := by
        rw [← List.append_assoc, ← List.length_append]
        exact List.drop_left _ _
      rw [hdrop]
      exact splitLastAux_no_occ hs n

theorem splitLast_append {tag s : Str} {ch : Char} (hh : headOnly tag ch)
    (hs : containsSub tag s = false) (A : Str) :
    splitLast tag (A ++ (tag ++ s)) = s :=
  splitLastAux_append hh hs _ A (Nat.le_refl _)

/-- Behaviour of `extract_code` on text of the delimited shape, when the
surrounding pieces do not interfere with the delimiters. -/
theorem extract_code_append {a c b : Str} (ha : containsSub openT a = false)
    (hc : containsSub closeT c = false) :
    extract_code (a ++ (openT ++ (c ++ (closeT ++ b)))) = some (strip c) := by
  have h1 : firstOcc openT (a ++ (openT ++ (c ++ (closeT ++ b)))) = some a.length :=
    firstOcc_append_self headOnly_openT ha
  have hdrop : (a ++ (openT ++ (c ++ (closeT ++ b)))).drop (a.length + openT.length)
      = c ++ (closeT ++ b) := by
    rw [← List.append_assoc, ← List.length_append]
    exact List.drop_left _ _
  have h2 : firstOcc closeT (c ++ (closeT ++ b)) = some c.length :=
    firstOcc_append_self headOnly_closeT hc
  have htake : (c ++ (closeT ++ b)).take c.length = c := List.take_left _ _
  rw [extract_code, h1]
  simp only [hdrop, h2, htake]

/-- Behaviour of the orchestrator's explanation extraction on text ending
in a delimited block: everything after the last closing tag, stripped. -/
theorem explanation_of_append {s : Str} (A : Str)
    (hs : containsSub closeT s = false) :
    explanation_of (A ++ (closeT ++ s)) = strip s := by
  have hcont : containsSub closeT (A ++ (closeT ++ s)) = true := by
    apply contains_of_starts (j := A.length)
    rw [List.drop_left]
    exact (strStarts_iff _ _).mpr ⟨s, rfl⟩
  rw [explanation_of, if_pos hcont, splitLast_append headOnly_closeT hs A]

/-- Code none of whose statements touches the `result` slot leaves the
slot exactly as it was, whether or not a fault is raised along the way. -/
theorem runCode_result_untouched : ∀ (code : List Stmt) (env : ExecEnv),
    code.all (fun s => !(touches_result s)) = true →
    ((runCode code env).2).result = env.result := by
  intro code
  induction code with
  | nil => intro env _; rfl
  | cons s rest ih =>
    intro env hall
    simp only [List.all_cons, Bool.and_eq_true] at hall
    obtain ⟨hs, hrest⟩ := hall
    cases s with
    | set_result v => simp [touches_result] at hs
    | del_result => simp [touches_result] at hs
    | raise_err msg => rfl
    | zero_amounts =>
      simp only [runCode, runStmt]
      exact ih _ hrest
    | pure_compute =>
      simp only [runCode, runStmt]
      exact ih _ hrest

theorem execute_code_success_iff (code : List Stmt) (ds : Dataset) :
    (execute_code code ds).1.success = true
      ↔ (runCode code { df := ds, result := some PyValue.vNone }).1 = none := by
  simp only [execute_code]
  rcases hrc : runCode code { df := ds, result := some PyValue.vNone } with ⟨err, ns⟩
  cases err with
  | none => simp
  | some msg => simp

theorem execute_code_success_iff_error (code : List Stmt) (ds : Dataset) :
    (execute_code code ds).1.success = true
      ↔ (execute_code code ds).1.error = none := by
  simp only [execute_code]
  rcases hrc : runCode code { df := ds, result := some PyValue.vNone } with ⟨err, ns⟩
  cases err with
  | none => simp
  | some msg => simp

theorem execute_code_of_runCode_ok (code : List Stmt) (ds : Dataset) (env' : ExecEnv)
    (h : runCode code { df := ds, result := some PyValue.vNone } = (none, env')) :
    execute_code code ds
      = ({ success := true,
           result := match env'.result with
             | some v => v
             | none => PyValue.vStr "Code executed but no result was set.".toList,
           error := none }, env'.df) := by
  simp only [execute_code]
  rw [h]

/-- C2 (amended).  On normal completion `execute_code` reports
`success = true` and hands back whatever the `result` slot holds.  The
slot is pre-bound to `None`, so code that never assigns `result` yields
the value `None` - not the sentinel string; the sentinel
`'Code executed but no result was set.'` is produced only when the key is
absent from the namespace, i.e. the code deleted the binding. -/
theorem C2_execute_normal_completion (code : List Stmt) (ds : Dataset)
    (env' : ExecEnv)
    (h : runCode code { df := ds, result := some PyValue.vNone } = (none, env')) :
    (execute_code code ds).1.success = true
    ∧ (execute_code code ds).1.result = (match env'.result with
        | some v => v
        | none => PyValue.vStr "Code executed but no result was set.".toList)
    ∧ (code.all (fun s => !(touches_result s)) = true →
        (execute_code code ds).1.result = PyValue.vNone) := by
  have hex : execute_code code ds
      = ({ success := true,
           result := match env'.result with
             | some v => v
             | none => PyValue.vStr "Code executed but no result was set.".toList,
           error := none }, env'.df) := by
    simp only [execute_code]
    rw [h]
  refine ⟨by rw [hex], by rw [hex], ?_⟩
  intro hall
  have hres := runCode_result_untouched code { df := ds, result := some PyValue.vNone } hall
  rw [h] at hres
  dsimp only at hres
  rw [hex, hres]

/-- C2 counterexample to the claim as stated: `x = 1` (modelled by
`pure_compute`) completes normally without ever setting the `result`
slot, yet the returned value is `None`, not the sentinel
"no result produced" string the claim promises. -/
theorem C2_counterexample :
    (execute_code [Stmt.pure_compute] sampleDs).1
      = { success := true, result := PyValue.vNone, error := none }
    ∧ (execute_code [Stmt.pure_compute] sampleDs).1.result
        ≠ PyValue.vStr "Code executed but no result was set.".toList := by
  exact ⟨rfl, by decide⟩

theorem C2_witness :
    (execute_code [Stmt.set_result (PyValue.vStr "X".toList)] sampleDs).1.success = true
    ∧ (execute_code [Stmt.set_result (PyValue.vStr "X".toList)] sampleDs).1.result
        = PyValue.vStr "X".toList
    ∧ (List.all [Stmt.set_result (PyValue.vStr "X".toList)]
          (fun s => !(touches_result s)) = true →
        (execute_code [Stmt.set_result (PyValue.vStr "X".toList)] sampleDs).1.result
          = PyValue.vNone) :=
  C2_execute_normal_completion [Stmt.set_result (PyValue.vStr "X".toList)] sampleDs
    { df := sampleDs, result := some (PyValue.vStr "X".toList) } rfl

/-- C3 (amended).  A raised fault is caught, never propagated
(`execute_code` is a total function into a result dict): the envelope is
`success = false`, `result` absent (`None`), and `error` the string form
of the fault.  That string is whatever `str(e)` gives - non-empty for
typical faults but empty when the exception carries no message. -/
theorem C3_execute_fault (code : List Stmt) (ds : Dataset) (msg : Str)
    (env' : ExecEnv)
    (h : runCode code { df := ds, result := some PyValue.vNone } = (some msg, env')) :
    (execute_code code ds).1
      = { success := false, result := PyValue.vNone, error := some msg } := by
  simp only [execute_code]
  rw [h]

/-- C3 counterexample to the claim as stated: a messageless raise
(`raise Exception()`, whose `str` form is the empty string) yields
`error = ""`, contradicting the claim that `error` is always a non-empty
string. -/
theorem C3_counterexample :
    (execute_code [Stmt.raise_err []] sampleDs).1
      = { success := false, result := PyValue.vNone, error := some ([] : Str) }
    ∧ ([] : Str).length = 0 :=
  ⟨rfl, rfl⟩

theorem C3_witness :
    (execute_code [Stmt.raise_err "KeyError: \x27Foo\x27".toList] sampleDs).1
      = { success := false, result := PyValue.vNone,
          error := some "KeyError: \x27Foo\x27".toList } :=
  C3_execute_fault [Stmt.raise_err "KeyError: \x27Foo\x27".toList] sampleDs
    "KeyError: \x27Foo\x27".toList { df := sampleDs, result := some PyValue.vNone } rfl

/-- C7 (amended).  On the empty dataset the aggregate figures the
summary would report are all zero and the department list is empty, but
`get_data_summary` raises instead of returning: formatting the date
range applies `strftime` to `df['Date'].min()`/`.max()`, which are `NaT`
on an empty frame, and pandas `NaT.strftime` raises `ValueError`. -/
theorem C7_empty_dataset_summary :
    total_revenue [] = 0 ∧ total_expenses [] = 0
    ∧ total_revenue [] - total_expenses [] = 0
    ∧ unique (([] : Dataset).map Row.department) = []
    ∧ get_data_summary ([] : Dataset)
        = .error "NaTType does not support strftime".toList := by
  refine ⟨rfl, rfl, by simp [total_revenue, total_expenses], rfl, rfl⟩

/-- C7 counterexample to the claim as stated: summarizing the empty
dataset does not complete - it raises the `NaT` strftime fault - so the
claim that it "does not raise" fails at the concrete input `[]`. -/
theorem C7_counterexample :
    (get_data_summary ([] : Dataset)).isOk = false :=
  rfl

/-- C8 (confirmed).  The executor enforces no immutability: the code
`df['Amount'] = 0` (modelled by `zero_amounts`) completes successfully
and leaves the dataframe object - shared by reference with the canonical
module-level dataset - durably changed after the call. -/
theorem C8_executor_mutation :
    ∃ code : List Stmt, (execute_code code sampleDs).1.success = true
      ∧ (execute_code code sampleDs).2 ≠ sampleDs := by
  refine ⟨[Stmt.zero_amounts], rfl, ?_⟩
  decide

/-- C4 (amended).  The extraction round-trip holds provided the
surrounding pieces do not interfere with the delimiters: if the prefix
contains no `<code>` and neither the code nor the suffix contains
`</code>`, then `extract` applied to
`prefix ++ <code> ++ code ++ </code> ++ suffix` returns the code trimmed
of surrounding whitespace, and the explanation is the suffix trimmed.
(Without those provisos the round-trip fails; see the counterexample.) -/
theorem C4_extraction_round_trip (a c b : Str)
    (ha : containsSub openT a = false) (hc : containsSub closeT c = false)
    (hb : containsSub closeT b = false) :
    extractFull (a ++ (openT ++ (c ++ (closeT ++ b)))) = (some (strip c), strip b) := by
  unfold extractFull
  rw [extract_code_append ha hc]
  have hassoc : a ++ (openT ++ (c ++ (closeT ++ b)))
      = (a ++ (openT ++ c)) ++ (closeT ++ b) := by
    simp [List.append_assoc]
  rw [hassoc, explanation_of_append _ hb]

/-- C4 counterexample to the claim as stated (which quantifies over all
prefix/code/suffix): with prefix `""`, code `"a"` and suffix
`"x</code>y"`, the explanation is everything after the LAST closing tag
(`"y"`), not the trimmed suffix. -/
theorem C4_counterexample :
    extractFull (([] : Str) ++ (openT ++ ("a".toList ++ (closeT ++ "x</code>y".toList))))
      = (some "a".toList, "y".toList)
    ∧ "y".toList ≠ strip "x</code>y".toList :=
  ⟨rfl, by decide⟩

theorem C4_witness :
    extractFull ("Sure:\n".toList ++ (openT ++ ("\nresult = 1\n".toList
        ++ (closeT ++ "\nThis computes.".toList))))
      = (some "result = 1".toList, "This computes.".toList) :=
  C4_extraction_round_trip "Sure:\n".toList "\nresult = 1\n".toList
    "\nThis computes.".toList (by decide) (by decide) (by decide)

/-- C5 (amended).  On any input with no matching delimiter pair the
extractor returns code = absent and cannot raise (it is a total
function); the explanation is the empty string whenever the input
contains no closing delimiter at all, but an unmatched `</code>` (with no
matching `<code>` before it) still yields the trimmed text after the last
`</code>` rather than the empty string promised by the claim. -/
theorem C5_no_pair (text : Str) (h : extract_code text = none) :
    (extractFull text).1 = none
    ∧ (containsSub closeT text = false → (extractFull text).2 = []) := by
  refine ⟨h, ?_⟩
  intro hnc
  show explanation_of text = []
  rw [explanation_of, hnc]
  rfl

/-- C5 counterexample to the claim as stated: `"a</code>b"` has no
matching delimiter pair (no `<code>` at all), so code = absent, yet the
explanation is `"b"`, not the empty string. -/
theorem C5_counterexample :
    extract_code "a</code>b".toList = none
    ∧ (extractFull "a</code>b".toList).2 = "b".toList
    ∧ "b".toList ≠ ([] : Str) :=
  ⟨rfl, rfl, by decide⟩

theorem C5_witness :
    (extractFull "no tags here".toList).1 = none
    ∧ (containsSub closeT "no tags here".toList = false →
        (extractFull "no tags here".toList).2 = []) :=
  C5_no_pair "no tags here".toList rfl

/-- C6 (confirmed).  Whenever the completion response yields no extracted
code block, the orchestrator returns the fixed could-not-generate-code
answer, the raw response as explanation, no code, `success = false`, and
the no-code-block-found error message. -/
theorem C6_no_code_envelope (llm : Str → Str) (interp : Str → List Stmt)
    (q : Str) (rows : Dataset) (ctx : Str)
    (hctx : get_data_summary rows = .ok ctx)
    (hnc : extract_code (llm (full_prompt ctx q)) = none) :
    ask_financial_question llm interp q rows
      = .ok ({ answer := PyValue.vStr "I couldn\x27t generate code to answer that question.".toList,
               code := none,
               explanation := llm (full_prompt ctx q),
               success := false,
               error := some "No code block found in response".toList }, rows) := by
  simp only [ask_financial_question, hctx, hnc]
  rfl

theorem C6_witness :
    ask_financial_question (fun _ => "I do not know.".toList) (fun _ => [])
        "Hi".toList sampleDs
      = .ok ({ answer := PyValue.vStr "I couldn\x27t generate code to answer that question.".toList,
               code := none,
               explanation := "I do not know.".toList,
               success := false,
               error := some "No code block found in response".toList }, sampleDs) :=
  C6_no_code_envelope (fun _ => "I do not know.".toList) (fun _ => []) "Hi".toList
    sampleDs sampleCtx rfl rfl

/-- C10 (confirmed).  A delimiter pair whose enclosed content strips to
the empty string extracts to the empty code string, which the
orchestrator's truthiness test `if not code` treats exactly like the
absence of a code block: the same fallback envelope is returned and
nothing is executed. -/
theorem C10_blank_code_block (llm : Str → Str) (interp : Str → List Stmt)
    (q : Str) (rows : Dataset) (ctx a w b : Str)
    (hctx : get_data_summary rows = .ok ctx)
    (hresp : llm (full_prompt ctx q) = a ++ (openT ++ (w ++ (closeT ++ b))))
    (ha : containsSub openT a = false) (hw : containsSub closeT w = false)
    (hstrip : strip w = []) :
    ask_financial_question llm interp q rows
      = .ok ({ answer := PyValue.vStr "I couldn\x27t generate code to answer that question.".toList,
               code := none,
               explanation := llm (full_prompt ctx q),
               success := false,
               error := some "No code block found in response".toList }, rows) := by
  have hext : extract_code (llm (full_prompt ctx q)) = some [] := by
    rw [hresp, extract_code_append ha hw, hstrip]
  simp only [ask_financial_question, hctx, hext]
  rfl

theorem C10_witness :
    ask_financial_question (fun _ => "<code>  </code>".toList) (fun _ => [])
        "Hi".toList sampleDs
      = .ok ({ answer := PyValue.vStr "I couldn\x27t generate code to answer that question.".toList,
               code := none,
               explanation := "<code>  </code>".toList,
               success := false,
               error := some "No code block found in response".toList }, sampleDs) :=
  C10_blank_code_block (fun _ => "<code>  </code>".toList) (fun _ => []) "Hi".toList
    sampleDs sampleCtx [] "  ".toList [] rfl rfl (by decide) (by decide) rfl

/-- C9 (confirmed).  The pipeline is deterministic and its only mutable
state is the dataframe itself: if a call on `rows` returns envelope `e`
and leaves the dataset unchanged (`d = rows`), an identical second call
returns the identical envelope. -/
theorem C9_idempotent (llm : Str → Str) (interp : Str → List Stmt) (q : Str)
    (rows : Dataset) (e : Envelope) (d : Dataset)
    (h1 : ask_financial_question llm interp q rows = .ok (e, d))
    (hunch : d = rows) :
    ask_financial_question llm interp q d = .ok (e, d) := by
  subst hunch
  exact h1

theorem C9_witness :
    ask_financial_question (fun _ => "<code>result = 1</code> ok".toList)
        (fun _ => [Stmt.set_result (PyValue.vInt 1)]) "Q".toList sampleDs
      = .ok ({ answer := PyValue.vInt 1, code := some "result = 1".toList,
               explanation := "ok".toList, success := true, error := none },
             sampleDs) :=
  C9_idempotent (fun _ => "<code>result = 1</code> ok".toList)
    (fun _ => [Stmt.set_result (PyValue.vInt 1)]) "Q".toList sampleDs
    { answer := PyValue.vInt 1, code := some "result = 1".toList,
      explanation := "ok".toList, success := true, error := none }
    sampleDs rfl rfl

/-- C1 (amended).  In every envelope `ask_financial_question` returns,
`success = true` iff `error` is absent, and both hold iff a non-empty
code block was extracted from the response AND that code executed
without raising (the `result` slot is pre-bound, so success does not
require the code to have bound a value).  `answer` is populated on every
failure path, but on success the envelope carries the extracted code and
`answer` is the verbatim result-slot value left by the run - `None`
(absent) when the code never set the slot, the sentinel string only when
the code deleted the binding. -/
theorem C1_envelope_invariant (llm : Str → Str) (interp : Str → List Stmt)
    (q : Str) (rows : Dataset) (ctx : Str) (e : Envelope) (d : Dataset)
    (hctx : get_data_summary rows = .ok ctx)
    (h : ask_financial_question llm interp q rows = .ok (e, d)) :
    (e.success = true ↔ e.error = none)
    ∧ (e.success = true ↔
        (pyFalsy (extract_code (llm (full_prompt ctx q))) = false
          ∧ (runCode (interp ((extract_code (llm (full_prompt ctx q))).getD []))
              { df := rows, result := some PyValue.vNone }).1 = none))
    ∧ (e.success = false → e.answer ≠ PyValue.vNone)
    ∧ (e.success = true →
        e.code = some ((extract_code (llm (full_prompt ctx q))).getD [])
        ∧ e.answer = (match (runCode (interp ((extract_code (llm (full_prompt ctx q))).getD []))
              { df := rows, result := some PyValue.vNone }).2.result with
            | some v => v
            | none => PyValue.vStr "Code executed but no result was set.".toList)) := by
  simp only [ask_financial_question, hctx] at h
  by_cases hf : pyFalsy (extract_code (llm (full_prompt ctx q))) = true
  · rw [if_pos hf] at h
    injection h with h2
    injection h2 with he hd
    subst he
    refine ⟨by simp, ?_, ?_, ?_⟩
    · constructor
      · intro hcon
        cases hcon
      · rintro ⟨hpf, _⟩
        rw [hf] at hpf
        cases hpf
    · intro _ hcon
      cases hcon
    · intro hcon
      cases hcon
  · rw [if_neg hf] at h
    have hpf : pyFalsy (extract_code (llm (full_prompt ctx q))) = false :=
      Bool.eq_false_iff.mpr hf
    by_cases hs : (execute_code
        (interp ((extract_code (llm (full_prompt ctx q))).getD [])) rows).1.success = true
    · rw [if_pos hs] at h
      injection h with h2
      injection h2 with he hd
      subst he
      have hfst : (runCode (interp ((extract_code (llm (full_prompt ctx q))).getD []))
          { df := rows, result := some PyValue.vNone }).1 = none :=
        (execute_code_success_iff _ rows).mp hs
      have hrc : runCode (interp ((extract_code (llm (full_prompt ctx q))).getD []))
          { df := rows, result := some PyValue.vNone }
          = (none, (runCode (interp ((extract_code (llm (full_prompt ctx q))).getD []))
              { df := rows, result := some PyValue.vNone }).2) := by
        rw [← hfst]
      refine ⟨by simp, ?_, ?_, ?_⟩
      · constructor
        · intro _
          exact ⟨hpf, hfst⟩
        · intro _
          rfl
      · intro hcon
        cases hcon
      · intro _
        refine ⟨rfl, ?_⟩
        show (execute_code
            (interp ((extract_code (llm (full_prompt ctx q))).getD [])) rows).1.result = _
        rw [execute_code_of_runCode_ok _ _ _ hrc]
    · rw [if_neg hs] at h
      injection h with h2
      injection h2 with he hd
      subst he
      have herr : (execute_code
          (interp ((extract_code (llm (full_prompt ctx q))).getD [])) rows).1.error ≠ none := by
        intro hn
        exact hs ((execute_code_success_iff_error _ rows).mpr hn)
      refine ⟨?_, ?_, ?_, ?_⟩
      · constructor
        · intro hcon
          cases hcon
        · intro hn
          exact absurd hn herr
      · constructor
        · intro hcon
          cases hcon
        · rintro ⟨_, hfst⟩
          exact absurd ((execute_code_success_iff _ rows).mpr hfst) hs
      · intro _ hcon
        cases hcon
      · intro hcon
        cases hcon

theorem C1_witness :
    (c1Env.success = true ↔ c1Env.error = none)
    ∧ (c1Env.success = true ↔
        (pyFalsy (extract_code (c1llm (full_prompt sampleCtx "What was total revenue?".toList))) = false
          ∧ (runCode (c1interp ((extract_code (c1llm (full_prompt sampleCtx
                "What was total revenue?".toList))).getD []))
              { df := sampleDs, result := some PyValue.vNone }).1 = none))
    ∧ (c1Env.success = false → c1Env.answer ≠ PyValue.vNone)
    ∧ (c1Env.success = true →
        c1Env.code = some ((extract_code (c1llm (full_prompt sampleCtx
            "What was total revenue?".toList))).getD [])
        ∧ c1Env.answer = (match (runCode (c1interp ((extract_code (c1llm (full_prompt sampleCtx
              "What was total revenue?".toList))).getD []))
              { df := sampleDs, result := some PyValue.vNone }).2.result with
            | some v => v
            | none => PyValue.vStr "Code executed but no result was set.".toList)) :=
  C1_envelope_invariant c1llm c1interp "What was total revenue?".toList sampleDs
    sampleCtx c1Env sampleDs rfl rfl

/-- C1 counterexample to the claim as stated: code `x = 1` (modelled by
`pure_compute`) executes without raising but never sets the pre-bound
`result` slot; the envelope then has `success = true`, `error` absent,
and `answer = None` - an unpopulated answer, contradicting the claim
that `answer` is always populated. -/
theorem C1_counterexample :
    (ask_financial_question (fun _ => "<code>x = 1</code>".toList)
        (fun _ => [Stmt.pure_compute]) "Q".toList sampleDs).toOption.map
      (fun p => (p.1.success, p.1.answer, p.1.error))
      = some (true, PyValue.vNone, none) :=
  rfl
